import Mathlib

/-!
Verification of the `art-for-daggerheart` module (`scripts/init.js`).

The module is a Foundry VTT glue layer: it preloads JSON mapping files into
a supported-pack set, derives "tokens"/"circle" sibling paths from a portrait
path via the regex in `buildPathsFromActorImg`, and mutates the in-memory
document in the `applyCompendiumArt` hook according to a configured token
mode.  Strings are modelled as `List Char`; JavaScript values that may be
`undefined`, `null` or a proper value are modelled by the `JsVal` type.
Debug logging, which has no effect on any data the claims mention, is not
modelled.
-/

abbrev Str := List Char

/-- JavaScript field value: `undefined`, `null`, or a proper value. -/
inductive JsVal (α : Type) : Type
  | undef : JsVal α
  | null : JsVal α
  | val : α → JsVal α
deriving DecidableEq, Repr

/-! ## String machinery for the path-deriver regex

`buildPathsFromActorImg` runs `/^(.*)\/portraits\/([^/]+)(\.[^.\/]+)$/` on
the portrait path.  With JavaScript backtracking semantics the greedy `(.*)`
selects the LAST occurrence of `/portraits/` (any earlier occurrence leaves a
later `/portraits/`, hence a `/`, in the tail, which `[^/]+` and `[^.\/]+`
reject), and inside the tail the greedy `([^/]+)` makes the extension start
at the LAST dot.  `.` does not match line terminators, so a match also
requires the part captured by `(.*)` to be free of line terminators.  The
functions below realise exactly that: `findFirst` finds the first occurrence
of a separator, and `splitLastInfix` finds the last one by searching the
reversed string. -/

/-- `stripPre sep s = some r` iff `s = sep ++ r`. -/
def stripPre : Str → Str → Option Str
  | [], s => some s
  | _ :: _, [] => none
  | c :: cs, d :: ds => if c = d then stripPre cs ds else none

/-- Split `s` at the first occurrence of `sep`: returns the parts before and
after that occurrence. -/
def findFirst (sep : Str) : Str → Option (Str × Str)
  | [] =>
    match stripPre sep [] with
    | some r => some ([], r)
    | none => none
  | c :: cs =>
    match stripPre sep (c :: cs) with
    | some r => some ([], r)
    | none => (findFirst sep cs).map fun p => (c :: p.1, p.2)

/-- Split `s` at the last occurrence of `sep` (the occurrence a greedy
leading `(.*)` selects): returns the parts before and after it. -/
def splitLastInfix (sep s : Str) : Option (Str × Str) :=
  match findFirst sep.reverse s.reverse with
  | some (b, a) => some (a.reverse, b.reverse)
  | none => none

theorem stripPre_append (sep t : Str) : stripPre sep (sep ++ t) = some t := by
  induction sep with
  | nil => rfl
  | cons c cs ih => simp [stripPre, ih]

theorem stripPre_eq_some {sep s r : Str} (h : stripPre sep s = some r) :
    s = sep ++ r := by
  induction sep generalizing s with
  | nil => simpa [stripPre] using h
  | cons c cs ih =>
    cases s with
    | nil => simp [stripPre] at h
    | cons d ds =>
      by_cases hcd : c = d
      · subst hcd
        simp only [stripPre, if_pos rfl] at h
        simpa using ih h
      · simp [stripPre, hcd] at h

theorem findFirst_eq_some {sep s b a : Str}
    (h : findFirst sep s = some (b, a)) : s = b ++ sep ++ a := by
  induction s generalizing b a with
  | nil =>
    cases hs : stripPre sep ([] : Str) with
    | none => simp [findFirst, hs] at h
    | some r =>
      simp only [findFirst, hs, Option.some.injEq, Prod.mk.injEq] at h
      obtain ⟨hb, ha⟩ := h
      subst hb; subst ha
      simpa using stripPre_eq_some hs
  | cons c cs ih =>
    cases hs : stripPre sep (c :: cs) with
    | some r =>
      simp only [findFirst, hs, Option.some.injEq, Prod.mk.injEq] at h
      obtain ⟨hb, ha⟩ := h
      subst hb; subst ha
      simpa using stripPre_eq_some hs
    | none =>
      cases hfa : findFirst sep cs with
      | none => simp [findFirst, hs, hfa] at h
      | some p =>
        obtain ⟨b', a'⟩ := p
        simp only [findFirst, hs, hfa, Option.map_some', Option.some.injEq,
          Prod.mk.injEq] at h
        obtain ⟨hb, ha⟩ := h
        subst ha
        rw [← hb]
        simpa using ih hfa

/-- If no character of `t` equals the head of the separator, the first
occurrence of the separator in `t ++ sep ++ rest` is exactly after `t`. -/
theorem findFirst_at_seam (h : Char) (sep' t rest : Str)
    (ht : ∀ c ∈ t, c ≠ h) :
    findFirst (h :: sep') (t ++ (h :: sep') ++ rest) = some (t, rest) := by
  induction t with
  | nil =>
    have hstrip := stripPre_append (h :: sep') rest
    cases hcons : (h :: sep') ++ rest with
    | nil => simp at hcons
    | cons x xs =>
      simp only [List.nil_append]
      rw [hcons] at hstrip ⊢
      simp [findFirst, hstrip]
  | cons c t' ih =>
    have hch : ¬ (h = c) := fun hh => (ht c (by simp)) hh.symm
    have ih' : findFirst (h :: sep') (t' ++ h :: (sep' ++ rest)) =
        some (t', rest) := by
      simpa [List.append_assoc] using ih (fun c hc => ht c (by simp [hc]))
    simp only [List.cons_append]
    simp [findFirst, stripPre, hch, ih']

/-- In the result of `findFirst [ch]`, the part before the occurrence does
not contain `ch`. -/
theorem findFirst_single_avoid {ch : Char} {s b a : Str}
    (h : findFirst [ch] s = some (b, a)) : ∀ c ∈ b, c ≠ ch := by
  induction s generalizing b a with
  | nil => simp [findFirst, stripPre] at h
  | cons c cs ih =>
    by_cases hc : ch = c
    · subst hc
      have hv : findFirst [ch] (ch :: cs) = some ([], cs) := by
        simp [findFirst, stripPre]
      rw [hv] at h
      injection h with hpair
      injection hpair with hb ha
      subst hb
      simp
    · cases hfa : findFirst [ch] cs with
      | none => simp [findFirst, stripPre, if_neg hc, hfa] at h
      | some p =>
        obtain ⟨b', a'⟩ := p
        simp only [findFirst, stripPre, if_neg hc, hfa, Option.map_some',
          Option.some.injEq, Prod.mk.injEq] at h
        obtain ⟨hb, _⟩ := h
        rw [← hb]
        intro x hx
        rcases List.mem_cons.mp hx with hx | hx
        · subst hx; exact fun hh => hc hh.symm
        · exact ih hfa x hx

theorem splitLastInfix_eq_some {sep s root tail : Str}
    (h : splitLastInfix sep s = some (root, tail)) :
    s = root ++ sep ++ tail := by
  unfold splitLastInfix at h
  cases hf : findFirst sep.reverse s.reverse with
  | none => rw [hf] at h; simp at h
  | some p =>
    obtain ⟨b, a⟩ := p
    rw [hf] at h
    simp only [Option.some.injEq, Prod.mk.injEq] at h
    obtain ⟨hr, htl⟩ := h
    have hs := findFirst_eq_some hf
    have : s.reverse.reverse = (b ++ sep.reverse ++ a).reverse := by rw [hs]
    simpa [← hr, ← htl, List.reverse_append, List.append_assoc] using this

/-- Splitting at the last occurrence of a separator whose last character
does not occur in `tail` finds the seam between `root ++ sep` and `tail`. -/
theorem splitLastInfix_at_seam (h : Char) (sep' root tail : Str)
    (ht : ∀ c ∈ tail, c ≠ h) :
    splitLastInfix (sep' ++ [h]) (root ++ (sep' ++ [h]) ++ tail) =
      some (root, tail) := by
  have hrev : (root ++ (sep' ++ [h]) ++ tail).reverse =
      tail.reverse ++ (h :: sep'.reverse) ++ root.reverse := by
    simp [List.reverse_append]
  have hsep : (sep' ++ [h]).reverse = h :: sep'.reverse := by
    simp [List.reverse_append]
  have ht' : ∀ c ∈ tail.reverse, c ≠ h := fun c hc =>
    ht c (List.mem_reverse.mp hc)
  have hfind := findFirst_at_seam h sep'.reverse tail.reverse root.reverse ht'
  unfold splitLastInfix
  rw [hsep, hrev, hfind]
  simp

/-- In the result of `splitLastInfix [ch]`, the part after the occurrence
does not contain `ch` (it is the last occurrence). -/
theorem splitLastInfix_single_avoid {ch : Char} {s b a : Str}
    (h : splitLastInfix [ch] s = some (b, a)) : ∀ c ∈ a, c ≠ ch := by
  unfold splitLastInfix at h
  simp only [List.reverse_cons, List.reverse_nil, List.nil_append] at h
  cases hf : findFirst [ch] s.reverse with
  | none => rw [hf] at h; simp at h
  | some p =>
    obtain ⟨b0, a0⟩ := p
    rw [hf] at h
    simp only [Option.some.injEq, Prod.mk.injEq] at h
    obtain ⟨_, ha⟩ := h
    subst ha
    intro c hc
    exact findFirst_single_avoid hf c (List.mem_reverse.mp hc)

/-! ## encodeURIComponent

`buildPathsFromActorImg` percent-encodes the wildcard filename with
JavaScript's `encodeURIComponent`: code points in `uriAlpha`, digits and the
marks `- _ . ! ~ * ' ( )` are kept, every other code point is replaced by
the uppercase-hex percent-encoding of its UTF-8 bytes. -/

/-- UTF-8 bytes of a Unicode code point. -/
def utf8Bytes (n : Nat) : List Nat :=
  if n < 128 then [n]
  else if n < 2048 then [192 + n / 64, 128 + n % 64]
  else if n < 65536 then [224 + n / 4096, 128 + n / 64 % 64, 128 + n % 64]
  else [240 + n / 262144, 128 + n / 4096 % 64, 128 + n / 64 % 64, 128 + n % 64]

/-- Uppercase hexadecimal digit, as used by `encodeURIComponent`. -/
def hexDigitChar (n : Nat) : Char :=
  if n < 10 then Char.ofNat (48 + n) else Char.ofNat (55 + n)

/-- Characters `encodeURIComponent` leaves unescaped:
letters, digits, and `- _ . ! ~ * ' ( )`. -/
def isUnreservedURIChar (c : Char) : Bool :=
  c.isAlpha || c.isDigit ||
    ['-', '_', '.', '!', '~', '*', Char.ofNat 39, '(', ')'].contains c

def encodeURIComponentChar (c : Char) : Str :=
  if isUnreservedURIChar c then [c]
  else (utf8Bytes c.toNat).foldr
    (fun b acc => '%' :: hexDigitChar (b / 16) :: hexDigitChar (b % 16) :: acc) []

/-- JavaScript `encodeURIComponent` on a string of Unicode scalar values. -/
def encodeURIComponent (s : Str) : Str :=
  s.foldr (fun c acc => encodeURIComponentChar c ++ acc) []

/-! ## The path deriver `buildPathsFromActorImg` -/

/-- JavaScript line terminators, which `.` in a regex does not match. -/
def isLineTerm (c : Char) : Bool :=
  c == Char.ofNat 10 || c == Char.ofNat 13 ||
    c == Char.ofNat 8232 || c == Char.ofNat 8233

/-- The literal `/portraits/` separator of the deriver's regex. -/
def portraitsSep : Str := "/portraits/".toList

/-- Result of a successful match in `buildPathsFromActorImg`
(`{ wildcardSrc, circleSrc, ext }`); a failed match returns `{}`,
modelled as `none`. -/
structure BuildResult where
  wildcardSrc : Str
  circleSrc : Str
  ext : Str
deriving DecidableEq, Repr

/-- `buildPathsFromActorImg` from `scripts/init.js`: runs
`/^(.*)\/portraits\/([^/]+)(\.[^.\/]+)$/` on the portrait path and, on a
match, builds the `tokens` wildcard path (filename percent-encoded, `*`
before the extension) and the `circle` path (filename unencoded).
The regex is embedded by its backtracking semantics: the greedy `(.*)`
selects the last `/portraits/` occurrence, whose tail must be slash-free;
`(.*)`'s `.` does not match line terminators, so the root must contain
none; the greedy `([^/]+)` puts the extension at the last dot of the tail,
and both the name and the extension body must be nonempty. -/
def buildPathsFromActorImg (actorImg : Str) : Option BuildResult :=
  match splitLastInfix portraitsSep actorImg with
  | none => none
  | some (root, tail) =>
    if root.any isLineTerm then none
    else if tail.any (fun c => c == '/') then none
    else
      match splitLastInfix ['.'] tail with
      | none => none
      | some (baseName, extBody) =>
        if baseName.isEmpty || extBody.isEmpty then none
        else
          some { wildcardSrc :=
                   root ++ "/tokens/".toList ++ encodeURIComponent baseName ++
                     '*' :: '.' :: extBody
                 circleSrc := root ++ "/circle/".toList ++ baseName ++ '.' :: extBody
                 ext := '.' :: extBody }

/-- The `A/portraits/Name.ext` convention as the spec words it: some root,
a nonempty slash-free name, and a final nonempty dot-segment with no
further dot or slash. -/
def MatchesPortraitForm (s : Str) : Prop :=
  ∃ root base body, s = root ++ portraitsSep ++ (base ++ '.' :: body) ∧
    base ≠ [] ∧ (∀ c ∈ base, c ≠ '/') ∧ body ≠ [] ∧
    (∀ c ∈ body, c ≠ '.') ∧ (∀ c ∈ body, c ≠ '/')

theorem list_any_false {p : Char → Bool} {l : Str}
    (h : ∀ c ∈ l, p c = false) : l.any p = false := by
  induction l with
  | nil => rfl
  | cons c cs ih =>
    simp only [List.any_cons, h c (by simp), Bool.false_or]
    exact ih fun x hx => h x (by simp [hx])

theorem isEmpty_false_of_ne_nil {l : Str} (h : l ≠ []) : l.isEmpty = false := by
  cases l with
  | nil => exact absurd rfl h
  | cons _ _ => rfl

/-- Soundness of the deriver on paths of the (amended) convention form:
the regex matches at the seam and produces the `tokens` and `circle`
paths. -/
theorem buildPaths_on_form (A base body : Str)
    (hA : ∀ c ∈ A, isLineTerm c = false)
    (hb : base ≠ []) (hbs : ∀ c ∈ base, c ≠ '/')
    (he : body ≠ []) (hed : ∀ c ∈ body, c ≠ '.') (hes : ∀ c ∈ body, c ≠ '/') :
    buildPathsFromActorImg (A ++ portraitsSep ++ (base ++ '.' :: body)) =
      some { wildcardSrc := A ++ "/tokens/".toList ++
               encodeURIComponent base ++ '*' :: '.' :: body
             circleSrc := A ++ "/circle/".toList ++ base ++ '.' :: body
             ext := '.' :: body } := by
  have htail : ∀ c ∈ base ++ '.' :: body, c ≠ '/' := by
    intro c hc
    rcases List.mem_append.mp hc with hc | hc
    · exact hbs c hc
    · rcases List.mem_cons.mp hc with hc | hc
      · subst hc; decide
      · exact hes c hc
  have hsepEq : portraitsSep = "/portraits".toList ++ ['/'] := by decide
  have h1 : splitLastInfix portraitsSep (A ++ portraitsSep ++ (base ++ '.' :: body)) =
      some (A, base ++ '.' :: body) := by
    rw [hsepEq]
    exact splitLastInfix_at_seam '/' "/portraits".toList A (base ++ '.' :: body) htail
  have h2 : splitLastInfix ['.'] (base ++ '.' :: body) = some (base, body) := by
    have := splitLastInfix_at_seam '.' [] base body hed
    simpa using this
  have hAany : A.any isLineTerm = false := list_any_false hA
  have hTany : (base ++ '.' :: body).any (fun c => c == '/') = false :=
    list_any_false fun c hc => by
      simpa using htail c hc
  have hbne : base.isEmpty = false := isEmpty_false_of_ne_nil hb
  have hene : body.isEmpty = false := isEmpty_false_of_ne_nil he
  unfold buildPathsFromActorImg
  rw [h1]
  simp [hAany, hTany, h2, hbne, hene]

/-- Completeness: whenever the deriver succeeds, the input path is of the
convention form and the result is the `tokens`/`circle` pair built from
its decomposition. -/
theorem buildPaths_some_spec {s : Str} {r : BuildResult}
    (h : buildPathsFromActorImg s = some r) :
    ∃ root base body, s = root ++ portraitsSep ++ (base ++ '.' :: body) ∧
      base ≠ [] ∧ (∀ c ∈ base, c ≠ '/') ∧ body ≠ [] ∧
      (∀ c ∈ body, c ≠ '.') ∧ (∀ c ∈ body, c ≠ '/') ∧
      r = { wildcardSrc := root ++ "/tokens/".toList ++
              encodeURIComponent base ++ '*' :: '.' :: body
            circleSrc := root ++ "/circle/".toList ++ base ++ '.' :: body
            ext := '.' :: body } := by
  unfold buildPathsFromActorImg at h
  cases h1 : splitLastInfix portraitsSep s with
  | none => rw [h1] at h; simp at h
  | some p =>
    obtain ⟨root, tail⟩ := p
    rw [h1] at h
    by_cases hA : root.any isLineTerm
    · simp [hA] at h
    · by_cases hT : tail.any (fun c => c == '/')
      · simp [hA, hT] at h
      · cases h2 : splitLastInfix ['.'] tail with
        | none => simp [hA, hT, h2] at h
        | some q =>
          obtain ⟨base, body⟩ := q
          by_cases hbe : (base.isEmpty || body.isEmpty) = true
          · simp [hA, hT, h2, hbe] at h
          · have hsplit : s = root ++ portraitsSep ++ tail :=
              splitLastInfix_eq_some h1
            have htl : tail = base ++ ['.'] ++ body := splitLastInfix_eq_some h2
            have hdots : ∀ c ∈ body, c ≠ '.' := splitLastInfix_single_avoid h2
            simp only [Bool.or_eq_true, not_or] at hbe
            obtain ⟨hbe1, hbe2⟩ := hbe
            have hTf : ∀ c ∈ tail, (c == '/') = false := by
              intro c hc
              by_contra hcc
              exact hT (List.any_eq_true.mpr ⟨c, hc, by
                cases hb : (c == '/') <;> simp_all⟩)
            have hTn : ∀ c ∈ tail, c ≠ '/' := fun c hc => by
              simpa using hTf c hc
            have hr : r = { wildcardSrc := root ++ "/tokens/".toList ++
                              encodeURIComponent base ++ '*' :: '.' :: body
                            circleSrc := root ++ "/circle/".toList ++ base ++
                              '.' :: body
                            ext := '.' :: body } := by
              have hbe' : (base.isEmpty || body.isEmpty) = false := by
                cases hx : (base.isEmpty || body.isEmpty) <;> simp_all
              simp only [h2, hbe'] at h
              simp only [if_neg hA, if_neg hT, Bool.false_eq_true,
                if_false] at h
              exact (Option.some.injEq _ _ ▸ h).symm
            refine ⟨root, base, body, ?_, ?_, ?_, ?_, hdots, ?_, hr⟩
            · rw [hsplit, htl]; simp [List.append_assoc]
            · intro hnil; rw [hnil] at hbe1; simp at hbe1
            · intro c hc
              exact hTn c (by rw [htl]; simp [hc])
            · intro hnil; rw [hnil] at hbe2; simp at hbe2
            · intro c hc
              exact hTn c (by rw [htl]; simp [hc])

/-- A non-matching path yields the empty result: contrapositive form of
`buildPaths_some_spec`. -/
theorem matchesForm_of_buildPaths_some {s : Str} {r : BuildResult}
    (h : buildPathsFromActorImg s = some r) : MatchesPortraitForm s := by
  obtain ⟨root, base, body, hs, h1, h2, h3, h4, h5, _⟩ := buildPaths_some_spec h
  exact ⟨root, base, body, hs, h1, h2, h3, h4, h5⟩

/-- C1: the claim states that for EVERY path `A/portraits/Name.ext` (with
`Name` slash-free and `ext` a final dot-segment) the deriver returns the
`tokens` wildcard path and the `circle` path.  It fails when `A` contains a
line terminator: `.` in the JavaScript regex does not match line
terminators, so `"\n/portraits/Name.png"` does not match and the deriver
returns the empty result instead of the claimed paths. -/
theorem C1_counterexample :
    buildPathsFromActorImg
        (['\n'] ++ portraitsSep ++ ("Name".toList ++ '.' :: "png".toList)) = none ∧
    ¬ (buildPathsFromActorImg
        (['\n'] ++ portraitsSep ++ ("Name".toList ++ '.' :: "png".toList)) =
      some { wildcardSrc := ['\n'] ++ "/tokens/".toList ++
               encodeURIComponent "Name".toList ++ '*' :: '.' :: "png".toList
             circleSrc := ['\n'] ++ "/circle/".toList ++ "Name".toList ++
               '.' :: "png".toList
             ext := '.' :: "png".toList }) := by
  constructor
  · decide
  · decide

/-- C1 (amended): for every actor image path `A/portraits/Name.ext` where
`A` contains no line terminator, `Name` is nonempty and slash-free, and
`ext` is a final nonempty dot-segment with no further dot or slash, the
deriver returns `wildcardSrc = A/tokens/<percent-encoded Name>*.ext` and
`circleSrc = A/circle/Name.ext` with the circle filename unencoded. -/
theorem C1_theorem (A base body : Str)
    (hA : ∀ c ∈ A, isLineTerm c = false)
    (hb : base ≠ []) (hbs : ∀ c ∈ base, c ≠ '/')
    (he : body ≠ []) (hed : ∀ c ∈ body, c ≠ '.') (hes : ∀ c ∈ body, c ≠ '/') :
    buildPathsFromActorImg (A ++ portraitsSep ++ (base ++ '.' :: body)) =
      some { wildcardSrc := A ++ "/tokens/".toList ++
               encodeURIComponent base ++ '*' :: '.' :: body
             circleSrc := A ++ "/circle/".toList ++ base ++ '.' :: body
             ext := '.' :: body } :=
  buildPaths_on_form A base body hA hb hbs he hed hes

/-- C1 witness: on `assets/portraits/Cult Adept.webp` the deriver returns
the percent-encoded wildcard path and the unencoded circle path. -/
theorem C1_witness :
    buildPathsFromActorImg "assets/portraits/Cult Adept.webp".toList =
      some { wildcardSrc := "assets/tokens/Cult%20Adept*.webp".toList
             circleSrc := "assets/circle/Cult Adept.webp".toList
             ext := ".webp".toList } := by
  have h := C1_theorem "assets".toList "Cult Adept".toList "webp".toList
    (by decide) (by decide) (by decide) (by decide) (by decide) (by decide)
  have e1 : "assets".toList ++ portraitsSep ++
      ("Cult Adept".toList ++ '.' :: "webp".toList) =
      "assets/portraits/Cult Adept.webp".toList := by decide
  rw [e1] at h
  rw [h]
  decide

/-! ## Document, pack and settings model

The host's transient document object (`source`) is modelled with `Option`
for possibly-absent nested objects and `JsVal` for fields that may be
`undefined`, `null` or a value.  The `ring` object's `colors`/`subject`
sub-objects are always present when `ring` is (the `??=` in the handler
establishes `{ colors: {}, subject: {} }`, and the host never supplies a
ring without them).  JavaScript numbers are modelled as rationals. -/

structure TextureData where
  src : JsVal Str
  fit : JsVal Str
deriving DecidableEq, Repr

structure RingColors where
  ring : JsVal Str
  background : JsVal Str
deriving DecidableEq, Repr

structure RingSubject where
  scale : JsVal Rat
  texture : JsVal Str
deriving DecidableEq, Repr

structure TokenRing where
  enabled : JsVal Bool
  effects : JsVal Nat
  colors : RingColors
  subject : RingSubject
deriving DecidableEq, Repr

structure PrototypeToken where
  texture : Option TextureData
  ring : Option TokenRing
  randomImg : JsVal Bool
  width : JsVal Rat
  height : JsVal Rat
deriving DecidableEq, Repr

structure SourceDoc where
  img : JsVal Str
  prototypeToken : Option PrototypeToken
deriving DecidableEq, Repr

def emptyTextureData : TextureData := { src := JsVal.undef, fit := JsVal.undef }

/-- The `{ colors: {}, subject: {} }` object from `ring ??= ...`. -/
def emptyTokenRing : TokenRing :=
  { enabled := JsVal.undef, effects := JsVal.undef
    colors := { ring := JsVal.undef, background := JsVal.undef }
    subject := { scale := JsVal.undef, texture := JsVal.undef } }

def emptyPrototypeToken : PrototypeToken :=
  { texture := none, ring := none, randomImg := JsVal.undef
    width := JsVal.undef, height := JsVal.undef }

structure PackMetadata where
  id : JsVal Str
deriving DecidableEq, Repr

structure Pack where
  metadata : Option PackMetadata
  collection : JsVal Str
deriving DecidableEq, Repr

/-- The art descriptor passed to the hook (`art`), with its `actor`
portrait-path field. -/
structure ArtDescriptor where
  actor : JsVal Str
deriving DecidableEq, Repr

/-- The module's world-scoped settings as read at the top of the handler.
`ringColor` is the normalized color string (the host's
`Color.from(raw).css ?? String(raw)` normalization is outside this
module's code and modelled as already applied). -/
structure Settings where
  tokenMode : Str
  tokenWidth : Rat
  tokenHeight : Rat
  imageFitMode : Str
  ringColor : Str
deriving DecidableEq, Repr

/-- The module-level mutable cache: `SUPPORTED_PACKS` and
`MAPPING_DATA_LOADED`. -/
structure ModuleState where
  SUPPORTED_PACKS : List Str
  MAPPING_DATA_LOADED : Bool
deriving DecidableEq, Repr

/-- The five `TOKEN_MODE` values. -/
def tokenModeWildcards : Str := "wildcards".toList
def tokenModeWildcardsRings : Str := "wildcardsRings".toList
def tokenModeCircle : Str := "circle".toList
def tokenModeCircleRings : Str := "circleRings".toList
def tokenModePortraitRings : Str := "portraitRings".toList

/-- `isWildcardMode` from `scripts/init.js`. -/
def isWildcardMode (m : Str) : Bool :=
  decide (m = tokenModeWildcards) || decide (m = tokenModeWildcardsRings)

/-- `hasRings` from `scripts/init.js`. -/
def hasRings (m : Str) : Bool :=
  decide (m = tokenModeWildcardsRings) || decide (m = tokenModeCircleRings) ||
    decide (m = tokenModePortraitRings)

/-- `Set.has` on the supported-pack set; a non-string (nullish) pack id is
never an element. -/
def setHas (packs : List Str) : JsVal Str → Bool
  | JsVal.val s => decide (s ∈ packs)
  | _ => false

/-- `isPackSupported` from `scripts/init.js`: fail-closed before the
mapping data is loaded, otherwise a membership test. -/
def isPackSupported (st : ModuleState) (packId : JsVal Str) : Bool :=
  if !st.MAPPING_DATA_LOADED then false
  else setHas st.SUPPORTED_PACKS packId

/-- `pack?.metadata?.id ?? pack?.collection` (line 195). -/
def packIdOf (pack : Option Pack) : JsVal Str :=
  let lhs : JsVal Str :=
    match pack with
    | none => JsVal.undef
    | some p =>
      match p.metadata with
      | none => JsVal.undef
      | some md => md.id
  match lhs with
  | JsVal.val s => JsVal.val s
  | _ =>
    match pack with
    | none => JsVal.undef
    | some p => p.collection

/-- The guard `typeof art?.actor === "string" && art.actor`: returns the
portrait path when `actor` is a nonempty string. -/
def artPortrait (art : Option ArtDescriptor) : Option Str :=
  match art with
  | none => none
  | some a =>
    match a.actor with
    | JsVal.val s => if s.isEmpty then none else some s
    | _ => none

/-- JavaScript truthiness of a possibly-undefined string. -/
def optTruthy : Option Str → Bool
  | some s => !s.isEmpty
  | none => false

/-- Lines 256-262: unconditional writes of the six dynamic-ring fields. -/
def applyRingFields (ringEnabled : Bool) (ringColor : Str)
    (pt : PrototypeToken) : PrototypeToken :=
  let ring1 : TokenRing :=
    { enabled := JsVal.val ringEnabled
      effects := JsVal.val 1
      colors := { ring := if ringEnabled then JsVal.val ringColor else JsVal.null
                  background := JsVal.null }
      subject := { scale := JsVal.val (if ringEnabled then (0.8 : Rat) else 1)
                   texture := JsVal.null } }
  { pt with ring := some ring1 }

/-- The `Hooks.on("applyCompendiumArt")` handler (lines 193-277):
gate on `MAPPING_DATA_LOADED` and `isPackSupported`, initialize the nested
token structure (`??=`), apply the portrait-to-token step when a nonempty
portrait string is present, and always write the ring fields. -/
def applyCompendiumArt (st : ModuleState) (stg : Settings) (pack : Option Pack)
    (art : Option ArtDescriptor) (source : SourceDoc) : SourceDoc :=
  let packId := packIdOf pack
  if !st.MAPPING_DATA_LOADED then source
  else if !isPackSupported st packId then source
  else
    let mode := stg.tokenMode
    let pt0 := source.prototypeToken.getD emptyPrototypeToken
    let tex0 := pt0.texture.getD emptyTextureData
    let ring0 := pt0.ring.getD emptyTokenRing
    let ptInit : PrototypeToken := { pt0 with texture := some tex0, ring := some ring0 }
    let afterPortrait : SourceDoc :=
      match artPortrait art with
      | none => { source with prototypeToken := some ptInit }
      | some a =>
        let paths := buildPathsFromActorImg a
        let wildcardSrc := paths.map BuildResult.wildcardSrc
        let circleSrc := paths.map BuildResult.circleSrc
        let chosen : Str × Bool :=
          if mode = tokenModePortraitRings then (a, false)
          else if isWildcardMode mode && optTruthy wildcardSrc then
            (wildcardSrc.getD [], true)
          else if optTruthy circleSrc then (circleSrc.getD [], false)
          else (a, false)
        { source with
          img := JsVal.val a
          prototypeToken := some
            { ptInit with
              texture := some { tex0 with src := JsVal.val chosen.1
                                          fit := JsVal.val stg.imageFitMode }
              randomImg := JsVal.val chosen.2
              width := JsVal.val stg.tokenWidth
              height := JsVal.val stg.tokenHeight } }
    { afterPortrait with
      prototypeToken :=
        afterPortrait.prototypeToken.map
          (applyRingFields (hasRings mode) stg.ringColor) }

/-! ### Field accessors (undefined when a nested object is absent) -/

def docTextureSrc (s : SourceDoc) : JsVal Str :=
  match s.prototypeToken with
  | none => JsVal.undef
  | some pt => match pt.texture with
    | none => JsVal.undef
    | some t => t.src

def docTextureFit (s : SourceDoc) : JsVal Str :=
  match s.prototypeToken with
  | none => JsVal.undef
  | some pt => match pt.texture with
    | none => JsVal.undef
    | some t => t.fit

def docRandomImg (s : SourceDoc) : JsVal Bool :=
  match s.prototypeToken with
  | none => JsVal.undef
  | some pt => pt.randomImg

def docWidth (s : SourceDoc) : JsVal Rat :=
  match s.prototypeToken with
  | none => JsVal.undef
  | some pt => pt.width

def docHeight (s : SourceDoc) : JsVal Rat :=
  match s.prototypeToken with
  | none => JsVal.undef
  | some pt => pt.height

def docRingEnabled (s : SourceDoc) : JsVal Bool :=
  match s.prototypeToken with
  | none => JsVal.undef
  | some pt => match pt.ring with
    | none => JsVal.undef
    | some r => r.enabled

def docRingEffects (s : SourceDoc) : JsVal Nat :=
  match s.prototypeToken with
  | none => JsVal.undef
  | some pt => match pt.ring with
    | none => JsVal.undef
    | some r => r.effects

def docRingColorRing (s : SourceDoc) : JsVal Str :=
  match s.prototypeToken with
  | none => JsVal.undef
  | some pt => match pt.ring with
    | none => JsVal.undef
    | some r => r.colors.ring

def docRingColorBackground (s : SourceDoc) : JsVal Str :=
  match s.prototypeToken with
  | none => JsVal.undef
  | some pt => match pt.ring with
    | none => JsVal.undef
    | some r => r.colors.background

def docRingScale (s : SourceDoc) : JsVal Rat :=
  match s.prototypeToken with
  | none => JsVal.undef
  | some pt => match pt.ring with
    | none => JsVal.undef
    | some r => r.subject.scale

def docRingSubjectTexture (s : SourceDoc) : JsVal Str :=
  match s.prototypeToken with
  | none => JsVal.undef
  | some pt => match pt.ring with
    | none => JsVal.undef
    | some r => r.subject.texture

/-- The input and both derived paths of a successful derivation are
nonempty strings (needed for JavaScript truthiness checks). -/
theorem buildPaths_parts_ne_nil {s : Str} {r : BuildResult}
    (h : buildPathsFromActorImg s = some r) :
    s ≠ [] ∧ r.wildcardSrc ≠ [] ∧ r.circleSrc ≠ [] := by
  obtain ⟨root, base, body, hs, _, _, _, _, _, hr⟩ := buildPaths_some_spec h
  have hps : portraitsSep ≠ [] := by decide
  have htk : ("/tokens/".toList : Str) ≠ [] := by decide
  have hci : ("/circle/".toList : Str) ≠ [] := by decide
  refine ⟨?_, ?_, ?_⟩
  · rw [hs]
    intro hnil
    rcases List.append_eq_nil.mp hnil with ⟨h1a, _⟩
    rcases List.append_eq_nil.mp h1a with ⟨_, h3⟩
    exact hps h3
  · rw [hr]
    intro hnil
    rcases List.append_eq_nil.mp hnil with ⟨_, h2⟩
    exact List.cons_ne_nil _ _ h2
  · rw [hr]
    intro hnil
    rcases List.append_eq_nil.mp hnil with ⟨_, h2⟩
    exact List.cons_ne_nil _ _ h2

/-- C5: if the pack identifier is not a member of the supported-pack set,
or mapping preloading has not completed, the handler performs zero
mutations: it returns the document exactly as passed in. -/
theorem C5_theorem (st : ModuleState) (stg : Settings) (pack : Option Pack)
    (art : Option ArtDescriptor) (source : SourceDoc)
    (h : setHas st.SUPPORTED_PACKS (packIdOf pack) = false ∨
         st.MAPPING_DATA_LOADED = false) :
    applyCompendiumArt st stg pack art source = source := by
  rcases h with h | h
  · cases hl : st.MAPPING_DATA_LOADED
    · simp [applyCompendiumArt, hl]
    · simp [applyCompendiumArt, isPackSupported, hl, h]
  · simp [applyCompendiumArt, h]

/-- C5 witness: a handler call on an empty, unloaded module state leaves a
concrete document untouched. -/
theorem C5_witness :
    applyCompendiumArt { SUPPORTED_PACKS := [], MAPPING_DATA_LOADED := false }
      { tokenMode := tokenModeWildcardsRings, tokenWidth := 1, tokenHeight := 1
        imageFitMode := "contain".toList, ringColor := "#8f0000".toList }
      (some { metadata := none, collection := JsVal.val "dh.pack".toList })
      (some { actor := JsVal.val "a/portraits/B.png".toList })
      { img := JsVal.undef, prototypeToken := none } =
    { img := JsVal.undef, prototypeToken := none } :=
  C5_theorem _ _ _ _ _ (Or.inr rfl)

/-- C9: the pack identifier used for the support check is
`pack.metadata.id` whenever that is a proper (non-nullish) value — taking
precedence over `collection` — and `pack.collection` otherwise. -/
theorem C9_theorem :
    (∀ (p : Pack) (md : PackMetadata) (s : Str),
        p.metadata = some md → md.id = JsVal.val s →
        packIdOf (some p) = JsVal.val s) ∧
    (∀ p : Pack,
        (p.metadata = none ∨ ∃ md, p.metadata = some md ∧
          (md.id = JsVal.undef ∨ md.id = JsVal.null)) →
        packIdOf (some p) = p.collection) := by
  constructor
  · intro p md s hmd hid
    simp [packIdOf, hmd, hid]
  · intro p h
    rcases h with h | ⟨md, hmd, h⟩
    · simp [packIdOf, h]
    · rcases h with h | h <;> simp [packIdOf, hmd, h]

/-- C9 witness: with both identifiers present `metadata.id` wins; with a
nullish `metadata.id` the `collection` is used. -/
theorem C9_witness :
    packIdOf (some { metadata := some { id := JsVal.val "idA".toList }
                     collection := JsVal.val "colB".toList }) =
      JsVal.val "idA".toList ∧
    packIdOf (some { metadata := some { id := JsVal.undef }
                     collection := JsVal.val "colB".toList }) =
      JsVal.val "colB".toList :=
  ⟨C9_theorem.1 _ _ _ rfl rfl,
   C9_theorem.2 _ (Or.inr ⟨_, rfl, Or.inl rfl⟩)⟩

/-- C7: every gated-through invocation writes all six ring fields:
`enabled` from the mode, `effects = 1`, `colors.ring` the configured color
when rings are enabled else null, `colors.background = null`,
`subject.scale` 0.8 when rings are enabled else 1.0, and
`subject.texture = null` — regardless of whether a portrait is present. -/
theorem C7_theorem (st : ModuleState) (stg : Settings) (pack : Option Pack)
    (art : Option ArtDescriptor) (source : SourceDoc)
    (hL : st.MAPPING_DATA_LOADED = true)
    (hS : setHas st.SUPPORTED_PACKS (packIdOf pack) = true) :
    docRingEnabled (applyCompendiumArt st stg pack art source) =
      JsVal.val (hasRings stg.tokenMode) ∧
    docRingEffects (applyCompendiumArt st stg pack art source) = JsVal.val 1 ∧
    docRingColorRing (applyCompendiumArt st stg pack art source) =
      (if hasRings stg.tokenMode then JsVal.val stg.ringColor else JsVal.null) ∧
    docRingColorBackground (applyCompendiumArt st stg pack art source) =
      JsVal.null ∧
    docRingScale (applyCompendiumArt st stg pack art source) =
      JsVal.val (if hasRings stg.tokenMode then (0.8 : Rat) else 1) ∧
    docRingSubjectTexture (applyCompendiumArt st stg pack art source) =
      JsVal.null := by
  cases hart : artPortrait art <;>
    simp [applyCompendiumArt, isPackSupported, hL, hS, hart, applyRingFields,
      docRingEnabled, docRingEffects, docRingColorRing, docRingColorBackground,
      docRingScale, docRingSubjectTexture]

/-- C7 witness: a concrete gated-through invocation with no art descriptor
still writes all six ring fields. -/
theorem C7_witness :
    docRingEnabled (applyCompendiumArt
      { SUPPORTED_PACKS := ["bestiary".toList], MAPPING_DATA_LOADED := true }
      { tokenMode := tokenModeCircleRings, tokenWidth := 1, tokenHeight := 1
        imageFitMode := "contain".toList, ringColor := "red".toList }
      (some { metadata := none, collection := JsVal.val "bestiary".toList })
      none { img := JsVal.undef, prototypeToken := none }) =
      JsVal.val (hasRings tokenModeCircleRings) ∧
    docRingEffects (applyCompendiumArt
      { SUPPORTED_PACKS := ["bestiary".toList], MAPPING_DATA_LOADED := true }
      { tokenMode := tokenModeCircleRings, tokenWidth := 1, tokenHeight := 1
        imageFitMode := "contain".toList, ringColor := "red".toList }
      (some { metadata := none, collection := JsVal.val "bestiary".toList })
      none { img := JsVal.undef, prototypeToken := none }) = JsVal.val 1 ∧
    docRingColorRing (applyCompendiumArt
      { SUPPORTED_PACKS := ["bestiary".toList], MAPPING_DATA_LOADED := true }
      { tokenMode := tokenModeCircleRings, tokenWidth := 1, tokenHeight := 1
        imageFitMode := "contain".toList, ringColor := "red".toList }
      (some { metadata := none, collection := JsVal.val "bestiary".toList })
      none { img := JsVal.undef, prototypeToken := none }) =
      (if hasRings tokenModeCircleRings then JsVal.val "red".toList
       else JsVal.null) ∧
    docRingColorBackground (applyCompendiumArt
      { SUPPORTED_PACKS := ["bestiary".toList], MAPPING_DATA_LOADED := true }
      { tokenMode := tokenModeCircleRings, tokenWidth := 1, tokenHeight := 1
        imageFitMode := "contain".toList, ringColor := "red".toList }
      (some { metadata := none, collection := JsVal.val "bestiary".toList })
      none { img := JsVal.undef, prototypeToken := none }) = JsVal.null ∧
    docRingScale (applyCompendiumArt
      { SUPPORTED_PACKS := ["bestiary".toList], MAPPING_DATA_LOADED := true }
      { tokenMode := tokenModeCircleRings, tokenWidth := 1, tokenHeight := 1
        imageFitMode := "contain".toList, ringColor := "red".toList }
      (some { metadata := none, collection := JsVal.val "bestiary".toList })
      none { img := JsVal.undef, prototypeToken := none }) =
      JsVal.val (if hasRings tokenModeCircleRings then (0.8 : Rat) else 1) ∧
    docRingSubjectTexture (applyCompendiumArt
      { SUPPORTED_PACKS := ["bestiary".toList], MAPPING_DATA_LOADED := true }
      { tokenMode := tokenModeCircleRings, tokenWidth := 1, tokenHeight := 1
        imageFitMode := "contain".toList, ringColor := "red".toList }
      (some { metadata := none, collection := JsVal.val "bestiary".toList })
      none { img := JsVal.undef, prototypeToken := none }) = JsVal.null :=
  C7_theorem _ _ _ _ _ rfl (by decide)

/-- C3: in mode `wildcardsRings`, a gated-through invocation with a
portrait path the deriver matches sets `randomImg = true`,
`ring.enabled = true`, `ring.subject.scale = 0.8`, and the token texture
source to the derived tokens-directory wildcard path. -/
theorem C3_theorem (st : ModuleState) (stg : Settings) (pack : Option Pack)
    (source : SourceDoc) (a : Str) (r : BuildResult)
    (hL : st.MAPPING_DATA_LOADED = true)
    (hS : setHas st.SUPPORTED_PACKS (packIdOf pack) = true)
    (hMode : stg.tokenMode = tokenModeWildcardsRings)
    (hB : buildPathsFromActorImg a = some r) :
    docRandomImg (applyCompendiumArt st stg pack
      (some { actor := JsVal.val a }) source) = JsVal.val true ∧
    docRingEnabled (applyCompendiumArt st stg pack
      (some { actor := JsVal.val a }) source) = JsVal.val true ∧
    docRingScale (applyCompendiumArt st stg pack
      (some { actor := JsVal.val a }) source) = JsVal.val (0.8 : Rat) ∧
    docTextureSrc (applyCompendiumArt st stg pack
      (some { actor := JsVal.val a }) source) = JsVal.val r.wildcardSrc := by
  obtain ⟨hane, hwne, _⟩ := buildPaths_parts_ne_nil hB
  have haE : a.isEmpty = false := isEmpty_false_of_ne_nil hane
  have hwE : r.wildcardSrc.isEmpty = false := isEmpty_false_of_ne_nil hwne
  have hart : artPortrait (some { actor := JsVal.val a }) = some a := by
    simp [artPortrait, haE]
  have hm1 : ¬ (tokenModeWildcardsRings = tokenModePortraitRings) := by decide
  have hm2 : isWildcardMode tokenModeWildcardsRings = true := by decide
  have hm3 : hasRings tokenModeWildcardsRings = true := by decide
  simp [applyCompendiumArt, isPackSupported, hL, hS, hart, hMode, hB, hm1,
    hm2, hm3, optTruthy, hwE, applyRingFields, docRandomImg, docRingEnabled,
    docRingScale, docTextureSrc]

/-- C3 witness: a concrete `wildcardsRings` invocation on
`modules/art/portraits/Goblin.webp`. -/
theorem C3_witness :
    docRandomImg (applyCompendiumArt
      { SUPPORTED_PACKS := ["daggerheart.adversaries".toList]
        MAPPING_DATA_LOADED := true }
      { tokenMode := tokenModeWildcardsRings, tokenWidth := 1, tokenHeight := 1
        imageFitMode := "contain".toList, ringColor := "#8f0000".toList }
      (some { metadata := some { id := JsVal.val "daggerheart.adversaries".toList }
              collection := JsVal.undef })
      (some { actor := JsVal.val "modules/art/portraits/Goblin.webp".toList })
      { img := JsVal.undef, prototypeToken := none }) = JsVal.val true ∧
    docRingEnabled (applyCompendiumArt
      { SUPPORTED_PACKS := ["daggerheart.adversaries".toList]
        MAPPING_DATA_LOADED := true }
      { tokenMode := tokenModeWildcardsRings, tokenWidth := 1, tokenHeight := 1
        imageFitMode := "contain".toList, ringColor := "#8f0000".toList }
      (some { metadata := some { id := JsVal.val "daggerheart.adversaries".toList }
              collection := JsVal.undef })
      (some { actor := JsVal.val "modules/art/portraits/Goblin.webp".toList })
      { img := JsVal.undef, prototypeToken := none }) = JsVal.val true ∧
    docRingScale (applyCompendiumArt
      { SUPPORTED_PACKS := ["daggerheart.adversaries".toList]
        MAPPING_DATA_LOADED := true }
      { tokenMode := tokenModeWildcardsRings, tokenWidth := 1, tokenHeight := 1
        imageFitMode := "contain".toList, ringColor := "#8f0000".toList }
      (some { metadata := some { id := JsVal.val "daggerheart.adversaries".toList }
              collection := JsVal.undef })
      (some { actor := JsVal.val "modules/art/portraits/Goblin.webp".toList })
      { img := JsVal.undef, prototypeToken := none }) = JsVal.val (0.8 : Rat) ∧
    docTextureSrc (applyCompendiumArt
      { SUPPORTED_PACKS := ["daggerheart.adversaries".toList]
        MAPPING_DATA_LOADED := true }
      { tokenMode := tokenModeWildcardsRings, tokenWidth := 1, tokenHeight := 1
        imageFitMode := "contain".toList, ringColor := "#8f0000".toList }
      (some { metadata := some { id := JsVal.val "daggerheart.adversaries".toList }
              collection := JsVal.undef })
      (some { actor := JsVal.val "modules/art/portraits/Goblin.webp".toList })
      { img := JsVal.undef, prototypeToken := none }) =
      JsVal.val "modules/art/tokens/Goblin*.webp".toList :=
  C3_theorem _ _ _ _ _
    { wildcardSrc := "modules/art/tokens/Goblin*.webp".toList
      circleSrc := "modules/art/circle/Goblin.webp".toList
      ext := ".webp".toList }
    rfl (by decide) rfl (by decide)

/-- C4: in mode `circle`, a gated-through invocation with a portrait path
the deriver matches sets `randomImg = false`, `ring.enabled = false`,
`ring.colors.ring = null`, `ring.subject.scale = 1.0`, and the token
texture source to the derived circle-directory exact path. -/
theorem C4_theorem (st : ModuleState) (stg : Settings) (pack : Option Pack)
    (source : SourceDoc) (a : Str) (r : BuildResult)
    (hL : st.MAPPING_DATA_LOADED = true)
    (hS : setHas st.SUPPORTED_PACKS (packIdOf pack) = true)
    (hMode : stg.tokenMode = tokenModeCircle)
    (hB : buildPathsFromActorImg a = some r) :
    docRandomImg (applyCompendiumArt st stg pack
      (some { actor := JsVal.val a }) source) = JsVal.val false ∧
    docRingEnabled (applyCompendiumArt st stg pack
      (some { actor := JsVal.val a }) source) = JsVal.val false ∧
    docRingColorRing (applyCompendiumArt st stg pack
      (some { actor := JsVal.val a }) source) = JsVal.null ∧
    docRingScale (applyCompendiumArt st stg pack
      (some { actor := JsVal.val a }) source) = JsVal.val 1 ∧
    docTextureSrc (applyCompendiumArt st stg pack
      (some { actor := JsVal.val a }) source) = JsVal.val r.circleSrc := by
  obtain ⟨hane, _, hcne⟩ := buildPaths_parts_ne_nil hB
  have haE : a.isEmpty = false := isEmpty_false_of_ne_nil hane
  have hcE : r.circleSrc.isEmpty = false := isEmpty_false_of_ne_nil hcne
  have hart : artPortrait (some { actor := JsVal.val a }) = some a := by
    simp [artPortrait, haE]
  have hm1 : ¬ (tokenModeCircle = tokenModePortraitRings) := by decide
  have hm2 : isWildcardMode tokenModeCircle = false := by decide
  have hm3 : hasRings tokenModeCircle = false := by decide
  simp [applyCompendiumArt, isPackSupported, hL, hS, hart, hMode, hB, hm1,
    hm2, hm3, optTruthy, hcE, applyRingFields, docRandomImg, docRingEnabled,
    docRingColorRing, docRingScale, docTextureSrc]

/-- C4 witness: a concrete `circle` invocation on
`modules/art/portraits/Goblin.webp`. -/
theorem C4_witness :
    docRandomImg (applyCompendiumArt
      { SUPPORTED_PACKS := ["daggerheart.adversaries".toList]
        MAPPING_DATA_LOADED := true }
      { tokenMode := tokenModeCircle, tokenWidth := 1, tokenHeight := 1
        imageFitMode := "contain".toList, ringColor := "#8f0000".toList }
      (some { metadata := some { id := JsVal.val "daggerheart.adversaries".toList }
              collection := JsVal.undef })
      (some { actor := JsVal.val "modules/art/portraits/Goblin.webp".toList })
      { img := JsVal.undef, prototypeToken := none }) = JsVal.val false ∧
    docRingEnabled (applyCompendiumArt
      { SUPPORTED_PACKS := ["daggerheart.adversaries".toList]
        MAPPING_DATA_LOADED := true }
      { tokenMode := tokenModeCircle, tokenWidth := 1, tokenHeight := 1
        imageFitMode := "contain".toList, ringColor := "#8f0000".toList }
      (some { metadata := some { id := JsVal.val "daggerheart.adversaries".toList }
              collection := JsVal.undef })
      (some { actor := JsVal.val "modules/art/portraits/Goblin.webp".toList })
      { img := JsVal.undef, prototypeToken := none }) = JsVal.val false ∧
    docRingColorRing (applyCompendiumArt
      { SUPPORTED_PACKS := ["daggerheart.adversaries".toList]
        MAPPING_DATA_LOADED := true }
      { tokenMode := tokenModeCircle, tokenWidth := 1, tokenHeight := 1
        imageFitMode := "contain".toList, ringColor := "#8f0000".toList }
      (some { metadata := some { id := JsVal.val "daggerheart.adversaries".toList }
              collection := JsVal.undef })
      (some { actor := JsVal.val "modules/art/portraits/Goblin.webp".toList })
      { img := JsVal.undef, prototypeToken := none }) = JsVal.null ∧
    docRingScale (applyCompendiumArt
      { SUPPORTED_PACKS := ["daggerheart.adversaries".toList]
        MAPPING_DATA_LOADED := true }
      { tokenMode := tokenModeCircle, tokenWidth := 1, tokenHeight := 1
        imageFitMode := "contain".toList, ringColor := "#8f0000".toList }
      (some { metadata := some { id := JsVal.val "daggerheart.adversaries".toList }
              collection := JsVal.undef })
      (some { actor := JsVal.val "modules/art/portraits/Goblin.webp".toList })
      { img := JsVal.undef, prototypeToken := none }) = JsVal.val 1 ∧
    docTextureSrc (applyCompendiumArt
      { SUPPORTED_PACKS := ["daggerheart.adversaries".toList]
        MAPPING_DATA_LOADED := true }
      { tokenMode := tokenModeCircle, tokenWidth := 1, tokenHeight := 1
        imageFitMode := "contain".toList, ringColor := "#8f0000".toList }
      (some { metadata := some { id := JsVal.val "daggerheart.adversaries".toList }
              collection := JsVal.undef })
      (some { actor := JsVal.val "modules/art/portraits/Goblin.webp".toList })
      { img := JsVal.undef, prototypeToken := none }) =
      JsVal.val "modules/art/circle/Goblin.webp".toList :=
  C4_theorem _ _ _ _ _
    { wildcardSrc := "modules/art/tokens/Goblin*.webp".toList
      circleSrc := "modules/art/circle/Goblin.webp".toList
      ext := ".webp".toList }
    rfl (by decide) rfl (by decide)

/-- Short strings cannot be of the portrait convention form. -/
theorem not_matchesForm_of_short (s : Str)
    (hlen : s.length < portraitsSep.length) : ¬ MatchesPortraitForm s := by
  rintro ⟨root, base, body, heq, _⟩
  have hl := congrArg List.length heq
  simp only [List.length_append, List.length_cons] at hl
  omega

/-- C2: the claim quantifies over every non-matching input path and says
the handler then uses the portrait path itself as the token source with
`randomImg = false`.  It fails for the empty string: `""` does not match
the convention and the deriver returns the empty result, but the handler's
`typeof art?.actor === "string" && art.actor` guard treats `""` as falsy
and skips the portrait step entirely, leaving `texture.src` and
`randomImg` undefined instead of setting them. -/
theorem C2_counterexample :
    buildPathsFromActorImg ([] : Str) = none ∧
    docTextureSrc (applyCompendiumArt
      { SUPPORTED_PACKS := ["p".toList], MAPPING_DATA_LOADED := true }
      { tokenMode := tokenModeWildcards, tokenWidth := 1, tokenHeight := 1
        imageFitMode := "contain".toList, ringColor := "#8f0000".toList }
      (some { metadata := some { id := JsVal.val "p".toList }
              collection := JsVal.undef })
      (some { actor := JsVal.val ([] : Str) })
      { img := JsVal.undef, prototypeToken := none }) = JsVal.undef ∧
    ¬ (docTextureSrc (applyCompendiumArt
      { SUPPORTED_PACKS := ["p".toList], MAPPING_DATA_LOADED := true }
      { tokenMode := tokenModeWildcards, tokenWidth := 1, tokenHeight := 1
        imageFitMode := "contain".toList, ringColor := "#8f0000".toList }
      (some { metadata := some { id := JsVal.val "p".toList }
              collection := JsVal.undef })
      (some { actor := JsVal.val ([] : Str) })
      { img := JsVal.undef, prototypeToken := none }) = JsVal.val ([] : Str)) ∧
    ¬ (docRandomImg (applyCompendiumArt
      { SUPPORTED_PACKS := ["p".toList], MAPPING_DATA_LOADED := true }
      { tokenMode := tokenModeWildcards, tokenWidth := 1, tokenHeight := 1
        imageFitMode := "contain".toList, ringColor := "#8f0000".toList }
      (some { metadata := some { id := JsVal.val "p".toList }
              collection := JsVal.undef })
      (some { actor := JsVal.val ([] : Str) })
      { img := JsVal.undef, prototypeToken := none }) = JsVal.val false) := by
  refine ⟨by decide, by decide, by decide, by decide⟩

/-- C2 (amended): for every NONEMPTY input path that does not match the
`<root>/portraits/<name><ext>` convention, the deriver returns the empty
result, and a gated-through handler invocation in any mode other than
`portraitRings` sets the token texture source to the portrait path itself
and `randomImg` to `false`. -/
theorem C2_theorem (s : Str) (st : ModuleState) (stg : Settings)
    (pack : Option Pack) (source : SourceDoc)
    (hnm : ¬ MatchesPortraitForm s) (hne : s ≠ [])
    (hL : st.MAPPING_DATA_LOADED = true)
    (hS : setHas st.SUPPORTED_PACKS (packIdOf pack) = true)
    (hMode : stg.tokenMode ≠ tokenModePortraitRings) :
    buildPathsFromActorImg s = none ∧
    docTextureSrc (applyCompendiumArt st stg pack
      (some { actor := JsVal.val s }) source) = JsVal.val s ∧
    docRandomImg (applyCompendiumArt st stg pack
      (some { actor := JsVal.val s }) source) = JsVal.val false := by
  have hB : buildPathsFromActorImg s = none := by
    cases hb : buildPathsFromActorImg s with
    | none => rfl
    | some r => exact absurd (matchesForm_of_buildPaths_some hb) hnm
  have haE : s.isEmpty = false := isEmpty_false_of_ne_nil hne
  have hart : artPortrait (some { actor := JsVal.val s }) = some s := by
    simp [artPortrait, haE]
  refine ⟨hB, ?_, ?_⟩ <;>
    simp [applyCompendiumArt, isPackSupported, hL, hS, hart, hB, hMode,
      optTruthy, applyRingFields, docTextureSrc, docRandomImg]

/-- C2 witness: `foo.png` has no `/portraits/` segment; the deriver
returns nothing and a concrete `wildcards`-mode invocation falls back to
the portrait itself. -/
theorem C2_witness :
    buildPathsFromActorImg "foo.png".toList = none ∧
    docTextureSrc (applyCompendiumArt
      { SUPPORTED_PACKS := ["p".toList], MAPPING_DATA_LOADED := true }
      { tokenMode := tokenModeWildcards, tokenWidth := 1, tokenHeight := 1
        imageFitMode := "contain".toList, ringColor := "#8f0000".toList }
      (some { metadata := some { id := JsVal.val "p".toList }
              collection := JsVal.undef })
      (some { actor := JsVal.val "foo.png".toList })
      { img := JsVal.undef, prototypeToken := none }) =
      JsVal.val "foo.png".toList ∧
    docRandomImg (applyCompendiumArt
      { SUPPORTED_PACKS := ["p".toList], MAPPING_DATA_LOADED := true }
      { tokenMode := tokenModeWildcards, tokenWidth := 1, tokenHeight := 1
        imageFitMode := "contain".toList, ringColor := "#8f0000".toList }
      (some { metadata := some { id := JsVal.val "p".toList }
              collection := JsVal.undef })
      (some { actor := JsVal.val "foo.png".toList })
      { img := JsVal.undef, prototypeToken := none }) = JsVal.val false :=
  C2_theorem _ _ _ _ _
    (not_matchesForm_of_short "foo.png".toList (by decide))
    (by decide) rfl (by decide) (by decide)

/-- C10: when the art descriptor's `actor` field is absent, nullish or the
empty string, a gated-through invocation leaves `img`, `texture.src`,
`texture.fit`, `randomImg`, `width` and `height` unchanged while still
performing all six ring-field writes. -/
theorem C10_theorem (st : ModuleState) (stg : Settings) (pack : Option Pack)
    (art : Option ArtDescriptor) (source : SourceDoc)
    (hL : st.MAPPING_DATA_LOADED = true)
    (hS : setHas st.SUPPORTED_PACKS (packIdOf pack) = true)
    (hart : art = none ∨ ∃ d, art = some d ∧
      (d.actor = JsVal.undef ∨ d.actor = JsVal.null ∨ d.actor = JsVal.val [])) :
    (applyCompendiumArt st stg pack art source).img = source.img ∧
    docTextureSrc (applyCompendiumArt st stg pack art source) =
      docTextureSrc source ∧
    docTextureFit (applyCompendiumArt st stg pack art source) =
      docTextureFit source ∧
    docRandomImg (applyCompendiumArt st stg pack art source) =
      docRandomImg source ∧
    docWidth (applyCompendiumArt st stg pack art source) = docWidth source ∧
    docHeight (applyCompendiumArt st stg pack art source) = docHeight source ∧
    docRingEnabled (applyCompendiumArt st stg pack art source) =
      JsVal.val (hasRings stg.tokenMode) ∧
    docRingEffects (applyCompendiumArt st stg pack art source) =
      JsVal.val 1 ∧
    docRingColorRing (applyCompendiumArt st stg pack art source) =
      (if hasRings stg.tokenMode then JsVal.val stg.ringColor else JsVal.null) ∧
    docRingColorBackground (applyCompendiumArt st stg pack art source) =
      JsVal.null ∧
    docRingScale (applyCompendiumArt st stg pack art source) =
      JsVal.val (if hasRings stg.tokenMode then (0.8 : Rat) else 1) ∧
    docRingSubjectTexture (applyCompendiumArt st stg pack art source) =
      JsVal.null := by
  have hap : artPortrait art = none := by
    rcases hart with h | ⟨d, hd, hcase⟩
    · simp [artPortrait, h]
    · rcases hcase with h | h | h <;> simp [artPortrait, hd, h]
  obtain ⟨img, pt⟩ := source
  cases pt with
  | none =>
    simp [applyCompendiumArt, isPackSupported, hL, hS, hap, applyRingFields,
      emptyPrototypeToken, emptyTextureData, emptyTokenRing,
      docTextureSrc, docTextureFit, docRandomImg, docWidth, docHeight,
      docRingEnabled, docRingEffects, docRingColorRing,
      docRingColorBackground, docRingScale, docRingSubjectTexture]
  | some ptv =>
    obtain ⟨tex, ring, rimg, w, hh⟩ := ptv
    cases tex with
    | none =>
      simp [applyCompendiumArt, isPackSupported, hL, hS, hap, applyRingFields,
        emptyPrototypeToken, emptyTextureData, emptyTokenRing,
        docTextureSrc, docTextureFit, docRandomImg, docWidth, docHeight,
        docRingEnabled, docRingEffects, docRingColorRing,
        docRingColorBackground, docRingScale, docRingSubjectTexture]
    | some t =>
      simp [applyCompendiumArt, isPackSupported, hL, hS, hap, applyRingFields,
        emptyPrototypeToken, emptyTextureData, emptyTokenRing,
        docTextureSrc, docTextureFit, docRandomImg, docWidth, docHeight,
        docRingEnabled, docRingEffects, docRingColorRing,
        docRingColorBackground, docRingScale, docRingSubjectTexture]

/-- C10 witness: a concrete gated-through invocation with an `undefined`
actor field leaves the document's image and token fields untouched while
writing the ring fields. -/
theorem C10_witness :
    (applyCompendiumArt
      { SUPPORTED_PACKS := ["p".toList], MAPPING_DATA_LOADED := true }
      { tokenMode := tokenModeWildcardsRings, tokenWidth := 1, tokenHeight := 1
        imageFitMode := "contain".toList, ringColor := "#8f0000".toList }
      (some { metadata := none, collection := JsVal.val "p".toList })
      (some { actor := JsVal.undef })
      { img := JsVal.undef, prototypeToken := none }).img = JsVal.undef ∧
    docTextureSrc (applyCompendiumArt
      { SUPPORTED_PACKS := ["p".toList], MAPPING_DATA_LOADED := true }
      { tokenMode := tokenModeWildcardsRings, tokenWidth := 1, tokenHeight := 1
        imageFitMode := "contain".toList, ringColor := "#8f0000".toList }
      (some { metadata := none, collection := JsVal.val "p".toList })
      (some { actor := JsVal.undef })
      { img := JsVal.undef, prototypeToken := none }) = JsVal.undef ∧
    docRandomImg (applyCompendiumArt
      { SUPPORTED_PACKS := ["p".toList], MAPPING_DATA_LOADED := true }
      { tokenMode := tokenModeWildcardsRings, tokenWidth := 1, tokenHeight := 1
        imageFitMode := "contain".toList, ringColor := "#8f0000".toList }
      (some { metadata := none, collection := JsVal.val "p".toList })
      (some { actor := JsVal.undef })
      { img := JsVal.undef, prototypeToken := none }) = JsVal.undef ∧
    docRingEnabled (applyCompendiumArt
      { SUPPORTED_PACKS := ["p".toList], MAPPING_DATA_LOADED := true }
      { tokenMode := tokenModeWildcardsRings, tokenWidth := 1, tokenHeight := 1
        imageFitMode := "contain".toList, ringColor := "#8f0000".toList }
      (some { metadata := none, collection := JsVal.val "p".toList })
      (some { actor := JsVal.undef })
      { img := JsVal.undef, prototypeToken := none }) =
      JsVal.val (hasRings tokenModeWildcardsRings) := by
  have h := C10_theorem
    { SUPPORTED_PACKS := ["p".toList], MAPPING_DATA_LOADED := true }
    { tokenMode := tokenModeWildcardsRings, tokenWidth := 1, tokenHeight := 1
      imageFitMode := "contain".toList, ringColor := "#8f0000".toList }
    (some { metadata := none, collection := JsVal.val "p".toList })
    (some { actor := JsVal.undef })
    { img := JsVal.undef, prototypeToken := none }
    rfl (by decide) (Or.inr ⟨_, rfl, Or.inl rfl⟩)
  exact ⟨h.1, h.2.1, h.2.2.2.1, h.2.2.2.2.2.2.1⟩

/-! ## Mapping preloader (`preloadMappingData`)

The network is modelled as a map from the fetched URL to an outcome: the
`fetch` promise rejecting or `response.json()` throwing (both caught and
logged by the `try/catch`), a non-ok HTTP response (logged, skipped), or a
successfully parsed JSON object abstracted as its list of top-level keys. -/

inductive FetchResult where
  | networkError : FetchResult
  | parseError : FetchResult
  | notOk : Nat → FetchResult
  | success : List Str → FetchResult
deriving DecidableEq, Repr

/-- One entry of the manifest's `compendiumArtMappings` value. -/
structure MappingConfig where
  mapping : JsVal Str
deriving DecidableEq, Repr

/-- `Set.add`: appends a pack id unless already present. -/
def addPack (packs : List Str) (k : Str) : List Str :=
  if k ∈ packs then packs else packs ++ [k]

/-- The pack ids contributed by one `compendiumArtMappings` entry: its
mapping file's top-level keys when `config?.mapping` is a truthy string
and the fetch and parse succeed, and nothing otherwise (failures are
caught or skipped, adding no packs). -/
def entryKeys (env : Str → FetchResult)
    (entry : Str × JsVal MappingConfig) : List Str :=
  match entry.2 with
  | JsVal.val config =>
    match config.mapping with
    | JsVal.val m =>
      if m.isEmpty then []
      else
        match env m with
        | FetchResult.success keys => keys
        | _ => []
    | _ => []
  | _ => []

def preloadStep (env : Str → FetchResult) (acc : ModuleState)
    (entry : Str × JsVal MappingConfig) : ModuleState :=
  { acc with SUPPORTED_PACKS :=
      (entryKeys env entry).foldl addPack acc.SUPPORTED_PACKS }

/-- `preloadMappingData` from `scripts/init.js`: clear `SUPPORTED_PACKS`,
process each configured system entry in order, and finally set
`MAPPING_DATA_LOADED`. -/
def preloadMappingData (env : Str → FetchResult)
    (compendiumMappings : List (Str × JsVal MappingConfig))
    (st : ModuleState) : ModuleState :=
  let cleared : ModuleState := { st with SUPPORTED_PACKS := [] }
  let processed := compendiumMappings.foldl (preloadStep env) cleared
  { processed with MAPPING_DATA_LOADED := true }

/-- `k` is a top-level key of the successfully fetched and parsed mapping
file of entry `e`. -/
def EntrySuccessKey (env : Str → FetchResult)
    (e : Str × JsVal MappingConfig) (k : Str) : Prop :=
  ∃ cfg, e.2 = JsVal.val cfg ∧ ∃ m, cfg.mapping = JsVal.val m ∧ m ≠ [] ∧
    ∃ keys, env m = FetchResult.success keys ∧ k ∈ keys

theorem mem_addPack {packs : List Str} {key k : Str} :
    k ∈ addPack packs key ↔ k ∈ packs ∨ k = key := by
  unfold addPack
  by_cases hm : key ∈ packs
  · simp only [if_pos hm]
    constructor
    · exact Or.inl
    · rintro (h | h)
      · exact h
      · subst h; exact hm
  · simp [if_neg hm]

theorem mem_foldl_addPack (keys packs : List Str) (k : Str) :
    k ∈ keys.foldl addPack packs ↔ k ∈ packs ∨ k ∈ keys := by
  induction keys generalizing packs with
  | nil => simp
  | cons key ks ih =>
    simp only [List.foldl_cons, ih, mem_addPack, List.mem_cons]
    tauto

theorem mem_preload_foldl (env : Str → FetchResult)
    (l : List (Str × JsVal MappingConfig)) (acc : ModuleState) (k : Str) :
    k ∈ (l.foldl (preloadStep env) acc).SUPPORTED_PACKS ↔
      k ∈ acc.SUPPORTED_PACKS ∨ ∃ e ∈ l, k ∈ entryKeys env e := by
  induction l generalizing acc with
  | nil =>
    simp only [List.foldl_nil]
    constructor
    · exact Or.inl
    · rintro (h | ⟨e, he, _⟩)
      · exact h
      · exact absurd he (List.not_mem_nil e)
  | cons e es ih =>
    simp only [List.foldl_cons, ih, preloadStep, mem_foldl_addPack,
      List.exists_mem_cons_iff]
    tauto

theorem mem_entryKeys_iff (env : Str → FetchResult)
    (e : Str × JsVal MappingConfig) (k : Str) :
    k ∈ entryKeys env e ↔ EntrySuccessKey env e k := by
  obtain ⟨sys, cfgv⟩ := e
  cases cfgv with
  | undef => simp [entryKeys, EntrySuccessKey]
  | null => simp [entryKeys, EntrySuccessKey]
  | val cfg =>
    cases hm : cfg.mapping with
    | undef => simp [entryKeys, EntrySuccessKey, hm]
    | null => simp [entryKeys, EntrySuccessKey, hm]
    | val m =>
      cases m with
      | nil => simp [entryKeys, EntrySuccessKey, hm]
      | cons c cs =>
        cases henv : env (c :: cs) with
        | networkError => simp [entryKeys, EntrySuccessKey, hm, henv]
        | parseError => simp [entryKeys, EntrySuccessKey, hm, henv]
        | notOk status => simp [entryKeys, EntrySuccessKey, hm, henv]
        | success keys => simp [entryKeys, EntrySuccessKey, hm, henv]

/-- C6: per-entry failures are isolated; after preloading, the loaded flag
is true and the supported-pack set is exactly the union of the top-level
keys of all successfully fetched and parsed mapping files.  In the
concrete two-file scenario — one fetch answering HTTP 404 and one valid
JSON object with keys `packA` and `packB` — the resulting set is exactly
`{packA, packB}`. -/
theorem C6_theorem :
    (∀ (env : Str → FetchResult)
       (mappings : List (Str × JsVal MappingConfig)) (st : ModuleState),
      (preloadMappingData env mappings st).MAPPING_DATA_LOADED = true ∧
      ∀ k, k ∈ (preloadMappingData env mappings st).SUPPORTED_PACKS ↔
        ∃ e ∈ mappings, EntrySuccessKey env e k) ∧
    ((preloadMappingData
        (fun u => if u = "systems/a.json".toList then FetchResult.notOk 404
          else if u = "systems/b.json".toList then
            FetchResult.success ["packA".toList, "packB".toList]
          else FetchResult.networkError)
        [("sysA".toList, JsVal.val { mapping := JsVal.val "systems/a.json".toList }),
         ("sysB".toList, JsVal.val { mapping := JsVal.val "systems/b.json".toList })]
        { SUPPORTED_PACKS := ["stale".toList], MAPPING_DATA_LOADED := false }
      ).SUPPORTED_PACKS = ["packA".toList, "packB".toList] ∧
      (preloadMappingData
        (fun u => if u = "systems/a.json".toList then FetchResult.notOk 404
          else if u = "systems/b.json".toList then
            FetchResult.success ["packA".toList, "packB".toList]
          else FetchResult.networkError)
        [("sysA".toList, JsVal.val { mapping := JsVal.val "systems/a.json".toList }),
         ("sysB".toList, JsVal.val { mapping := JsVal.val "systems/b.json".toList })]
        { SUPPORTED_PACKS := ["stale".toList], MAPPING_DATA_LOADED := false }
      ).MAPPING_DATA_LOADED = true) := by
  refine ⟨fun env mappings st => ⟨rfl, fun k => ?_⟩, by decide, by decide⟩
  unfold preloadMappingData
  simp only [mem_preload_foldl, List.not_mem_nil, false_or]
  constructor
  · rintro ⟨e, he, hk⟩
    exact ⟨e, he, (mem_entryKeys_iff env e k).mp hk⟩
  · rintro ⟨e, he, hk⟩
    exact ⟨e, he, (mem_entryKeys_iff env e k).mpr hk⟩

/-! ## Settings registration (`registerSettings`) -/

/-- One `game.settings.register` call, keeping the fields the spec talks
about: key, scope, whether it shows in config, and `requiresReload`
(false when the option is registered without that field). -/
structure SettingRegistration where
  key : Str
  scope : Str
  config : Bool
  requiresReload : Bool
deriving DecidableEq, Repr

/-- `registerSettings` from `scripts/init.js`, in registration order.
`tokenAutoRotate` and `debugLogging` are registered without a
`requiresReload` field; the other five set `requiresReload: true`. -/
def registerSettings : List SettingRegistration :=
  [{ key := "tokenAutoRotate".toList, scope := "world".toList
     config := true, requiresReload := false },
   { key := "debugLogging".toList, scope := "world".toList
     config := true, requiresReload := false },
   { key := "ringColor".toList, scope := "world".toList
     config := true, requiresReload := true },
   { key := "tokenMode".toList, scope := "world".toList
     config := true, requiresReload := true },
   { key := "tokenWidth".toList, scope := "world".toList
     config := true, requiresReload := true },
   { key := "tokenHeight".toList, scope := "world".toList
     config := true, requiresReload := true },
   { key := "imageFitMode".toList, scope := "world".toList
     config := true, requiresReload := true }]

/-- C8: the claim says every registered option except debug logging has
`requiresReload` set.  It fails: `tokenAutoRotate` is registered without
`requiresReload` (and is not the debug-logging flag). -/
theorem C8_counterexample :
    (∃ r ∈ registerSettings, r.key = "tokenAutoRotate".toList ∧
      r.requiresReload = false) ∧
    ¬ (∀ r ∈ registerSettings, r.key = "debugLogging".toList ∨
      r.requiresReload = true) := by
  constructor
  · decide
  · decide

/-- C8 (amended): every registered option is world-scoped, and every
option except the debug-logging flag AND the token-auto-rotate flag is
registered with `requiresReload`. -/
theorem C8_theorem : ∀ r ∈ registerSettings,
    r.scope = "world".toList ∧
    (r.key ≠ "debugLogging".toList → r.key ≠ "tokenAutoRotate".toList →
      r.requiresReload = true) := by
  decide

/-- C8 witness: the `ringColor` registration is world-scoped and requires
a reload. -/
theorem C8_witness :
    ({ key := "ringColor".toList, scope := "world".toList
       config := true, requiresReload := true } : SettingRegistration).scope =
      "world".toList ∧
    (({ key := "ringColor".toList, scope := "world".toList
        config := true, requiresReload := true } : SettingRegistration).key ≠
        "debugLogging".toList →
      ({ key := "ringColor".toList, scope := "world".toList
         config := true, requiresReload := true } : SettingRegistration).key ≠
        "tokenAutoRotate".toList →
      ({ key := "ringColor".toList, scope := "world".toList
         config := true, requiresReload := true } : SettingRegistration).requiresReload = true) :=
  C8_theorem _ (by decide)
